import Mathlib

/-!
Verification of the metrics aggregation and grouping core of
`k8s-gpu-monitoring` (Go): the Prometheus query fan-out
(`GetGPUMetrics`, `GetGPUProcesses` in `internal/prometheus`) and the two
correlators (`parseGPUMetrics`, `parseGPUProcesses`).

The embedding below is a direct translation of the Go source:

* A Prometheus response is a list of result points; each point carries a
  label map (`Metric`, a map of string to string; a missing key reads as
  the empty string, as Go map indexing does) and a `Value` array of
  dynamically typed JSON values.
* Go maps accumulated during correlation are modelled as association
  lists with in-place update and append-on-new-key, so lookups behave
  exactly like Go map indexing; Go iterates maps in unspecified order,
  and the embedding fixes one order, which none of the proved properties
  depend on.
* `strconv.ParseFloat` values are only ever truncated to `int`, so the
  parsed number is kept as an exact unnormalised decimal fraction
  (integer numerator over a power of ten) rather than as an IEEE 754
  float; the decimal forms the repository actually feeds it are exact in
  both semantics.  Go also accepts hex/Inf/NaN spellings, which never
  occur here and are out of the model's scope.
* `strconv.Atoi` returns a value even on error (0 on a syntax error, a
  clamped value on range error); the Go code discards the error, so the
  model exposes exactly that returned value (`atoiVal`).
* A Go nil slice is distinguished from a non-nil empty slice
  (`GoSlice.nilSlice` vs `GoSlice.mkSlice []`), because the two
  serialise differently (JSON `null` vs `[]`).
* The concurrent fan-out joins all query outcomes before any result is
  used and fails the whole call on the first error; at the call boundary
  this is the sequential fail-fast fold `collectResults` over a query
  oracle.  `timeutil.NowJST()` is abstracted as a `now : Nat` parameter,
  constant within one call.
-/

namespace GpuMon

/-- A dynamically typed JSON value inside the Prometheus `value` array
(Go `[]interface{}`); the code only ever inspects whether an element is
a string. -/
inductive JsonVal where
  | str (s : String)
  | num (n : Int)
  | null
deriving DecidableEq

/-- One time-series result point: label map plus `[timestamp, value]`
array (Go `struct { Metric map[string]string; Value []interface{} }`). -/
structure ResultPoint where
  metric : List (String × String)
  value : List JsonVal
deriving DecidableEq

/-- The decoded Prometheus response as the correlators see it
(`response.Data.Result`). -/
structure PrometheusResponse where
  result : List ResultPoint
deriving DecidableEq

/-- Association-list lookup, the model of Go map indexing (first binding
for the key wins; keys stay unique under `aupdate`). -/
def alookup {β : Type} (k : String) : List (String × β) → Option β
  | [] => none
  | (k2, v) :: t => if k = k2 then some v else alookup k t

/-- Association-list store, the model of Go `m[k] = v`: update the
existing binding in place, or append a new binding. -/
def aupdate {β : Type} (k : String) (v : β) : List (String × β) → List (String × β)
  | [] => [(k, v)]
  | (k2, v2) :: t => if k = k2 then (k, v) :: t else (k2, v2) :: aupdate k v t

/-- Go map indexing on a label map: a missing label reads as `""`. -/
def getLabel (m : List (String × String)) (k : String) : String :=
  (alookup k m).getD ""

/-- An exact unnormalised decimal fraction `num / den` (with `den` a
positive power of ten): the model of a parsed floating-point value. -/
structure Frac where
  num : Int
  den : Nat
deriving DecidableEq

/-- Go `int(x)` on a parsed value: truncation toward zero. -/
def truncFrac (f : Frac) : Int :=
  if 0 ≤ f.num then ((f.num.toNat / f.den : Nat) : Int)
  else -(((((-f.num).toNat) / f.den : Nat) : Int))

/-- Numeric value of a digit string (callers guarantee all digits). -/
def digitsToNat (ds : List Char) : Nat :=
  ds.foldl (fun a c => a * 10 + (c.toNat - 48)) 0

/-- At least one character, all decimal digits. -/
def parseDigitsAll (cs : List Char) : Option Nat :=
  if cs ≠ [] ∧ cs.all Char.isDigit then some (digitsToNat cs) else none

/-- Optionally signed nonempty digit string. -/
def parseSignedDigits (cs : List Char) : Option Int :=
  match cs with
  | '+' :: t => (parseDigitsAll t).map Int.ofNat
  | '-' :: t => (parseDigitsAll t).map (fun n => -(n : Int))
  | t => (parseDigitsAll t).map Int.ofNat

/-- The optional exponent suffix of a float literal: empty, or `e`/`E`
followed by an optionally signed nonempty digit string. -/
def parseExpPart (cs : List Char) : Option Int :=
  match cs with
  | [] => some 0
  | 'e' :: t => parseSignedDigits t
  | 'E' :: t => parseSignedDigits t
  | _ => none

/-- Go `strconv.ParseFloat(s, 64)` on the decimal forms the system can
meet: `[sign] digits [. digits] [eE [sign] digits]` with at least one
mantissa digit; anything else fails.  The result is the exact decimal
value (see module comment on float semantics). -/
def parseFloat (s : String) : Option Frac :=
  let cs := s.data
  let signAndRest : Bool × List Char :=
    match cs with
    | '+' :: t => (false, t)
    | '-' :: t => (true, t)
    | t => (false, t)
  let neg := signAndRest.1
  let cs1 := signAndRest.2
  let ip := cs1.takeWhile Char.isDigit
  let rest1 := cs1.dropWhile Char.isDigit
  let fpAndRest : List Char × List Char :=
    match rest1 with
    | '.' :: t => (t.takeWhile Char.isDigit, t.dropWhile Char.isDigit)
    | t => ([], t)
  let fp := fpAndRest.1
  let rest2 := fpAndRest.2
  if ip = [] ∧ fp = [] then none
  else
    match parseExpPart rest2 with
    | none => none
    | some e =>
      let k := fp.length
      let m : Int := Int.ofNat (digitsToNat ip * 10 ^ k + digitsToNat fp)
      let m2 : Int := if neg then -m else m
      if 0 ≤ e then some ⟨m2 * ((10 ^ e.toNat : Nat) : Int), 10 ^ k⟩
      else some ⟨m2, 10 ^ k * 10 ^ (-e).toNat⟩

/-- Full-string optionally signed decimal integer, the syntax accepted
by Go `strconv.Atoi` (= `ParseInt(s, 10, 0)`). -/
def parseDecInt (s : String) : Option Int :=
  match s.data with
  | '+' :: t => (parseDigitsAll t).map Int.ofNat
  | '-' :: t => (parseDigitsAll t).map (fun n => -(n : Int))
  | t => (parseDigitsAll t).map Int.ofNat

def int64Max : Int := 2 ^ 63 - 1

def int64Min : Int := -(2 ^ 63)

/-- The value part of Go `strconv.Atoi`: 0 on a syntax error, the
clamped bound on a range error, else the parsed integer.  The Go code
always discards `Atoi`'s error, so this is all it observes. -/
def atoiVal (s : String) : Int :=
  match parseDecInt s with
  | none => 0
  | some n => if n > int64Max then int64Max else if n < int64Min then int64Min else n

/-- The guarded extraction of the observation string from the `Value`
array: require length ≥ 2 and a string in position 1 (the Go code checks
`len(result.Value) < 2` and then type-asserts to `string`). -/
def valueString (v : List JsonVal) : Option String :=
  if v.length < 2 then none
  else
    match v.get? 1 with
    | some (JsonVal.str s) => some s
    | _ => none

/-- The numeric observation of a point, if its `Value` array is
well-formed and the string parses (`valueString` then `ParseFloat`). -/
def pointVal (p : ResultPoint) : Option Frac :=
  (valueString p.value).bind parseFloat

/-- A Go slice, distinguishing the nil slice (JSON `null`) from a
materialised, possibly empty slice. -/
inductive GoSlice (α : Type) where
  | nilSlice
  | mkSlice (elems : List α)
deriving DecidableEq

/-- The elements of a Go slice (nil reads as empty). -/
def GoSlice.toList {α : Type} : GoSlice α → List α
  | .nilSlice => []
  | .mkSlice l => l

/-- A slice built by `append`ing every element of `l` to the nil zero
value `var s []T`: still nil when no element was appended. -/
def appendAll {α : Type} (l : List α) : GoSlice α :=
  match l with
  | [] => .nilSlice
  | l => .mkSlice l

/-- `models.GPUMetrics`: one record per (node, GPU index). -/
structure GPUMetrics where
  nodeName : String
  gpuIndex : Int
  gpuName : String
  gpuMemoryFree : Int
  gpuMemoryUsed : Int
  gpuMemoryTotal : Int
  gpuUtilization : Int
  gpuTemperature : Int
  cpuUtilization : Int
  memoryUtilization : Int
  timestamp : Nat
deriving DecidableEq

/-- `models.GPUProcess`: one record per (node, GPU index, pid). -/
structure GPUProcess where
  nodeName : String
  gpuIndex : Int
  pid : Int
  processName : String
  user : String
  command : String
  gpuMemory : Int
  timestamp : Nat
deriving DecidableEq

/-- The node-scoped side table entry of `parseGPUMetrics` (anonymous Go
struct of two float64 fields, zero-valued when absent). -/
structure NodeUtil where
  cpuUtilization : Frac
  memoryUtilization : Frac
deriving DecidableEq

def zeroFrac : Frac := ⟨0, 1⟩

def zeroNodeUtil : NodeUtil := ⟨zeroFrac, zeroFrac⟩

/-- The two accumulators of `parseGPUMetrics`: `metricsMap` keyed by
`"node:gpu"` and the node-keyed utilisation side table. -/
structure MetricsState where
  metricsMap : List (String × GPUMetrics)
  nodeUtil : List (String × NodeUtil)
deriving DecidableEq

/-- The record created on first sight of a (node, GPU) key: identity and
name labels of the creating point, numeric fields zero, fresh
timestamp. -/
def freshMetrics (now : Nat) (nodeName gpuIndex gpuName : String) : GPUMetrics :=
  { nodeName := nodeName, gpuIndex := atoiVal gpuIndex, gpuName := gpuName,
    gpuMemoryFree := 0, gpuMemoryUsed := 0, gpuMemoryTotal := 0,
    gpuUtilization := 0, gpuTemperature := 0, cpuUtilization := 0,
    memoryUtilization := 0, timestamp := now }

/-- The `switch metricType` of `parseGPUMetrics`: route the truncated
value into the field named by the metric type (no default case: an
unknown type changes nothing). -/
def setMetricField (metricType : String) (v : Frac) (e : GPUMetrics) : GPUMetrics :=
  if metricType = "gpu_mem_free" then { e with gpuMemoryFree := truncFrac v }
  else if metricType = "gpu_mem_used" then { e with gpuMemoryUsed := truncFrac v }
  else if metricType = "gpu_mem_total" then { e with gpuMemoryTotal := truncFrac v }
  else if metricType = "gpu_utilization" then { e with gpuUtilization := truncFrac v }
  else if metricType = "gpu_temperature" then { e with gpuTemperature := truncFrac v }
  else e

/-- One point of the first pass of `parseGPUMetrics`, in the exact guard
order of the Go loop body: skip on empty `hostname`; skip on a
malformed or unparseable value; node-scoped metric types update the
side table (last write wins) and contribute to no record; a per-GPU
point with empty `gpu_id` is skipped; otherwise create-or-reuse the
record for `"node:gpu"` and store the routed value. -/
def metricsStep (now : Nat) (metricType : String) (st : MetricsState) (p : ResultPoint) :
    MetricsState :=
  let nodeName := getLabel p.metric "hostname"
  let gpuIndex := getLabel p.metric "gpu_id"
  let gpuName := getLabel p.metric "gpu_name"
  if nodeName = "" then st
  else
    match pointVal p with
    | none => st
    | some value =>
      if metricType = "cpu_utilization" ∨ metricType = "memory_utilization" then
        let u := (alookup nodeName st.nodeUtil).getD zeroNodeUtil
        let u2 := if metricType = "cpu_utilization" then { u with cpuUtilization := value }
                  else { u with memoryUtilization := value }
        { st with nodeUtil := aupdate nodeName u2 st.nodeUtil }
      else if gpuIndex = "" then st
      else
        let key := nodeName ++ ":" ++ gpuIndex
        let entry := (alookup key st.metricsMap).getD (freshMetrics now nodeName gpuIndex gpuName)
        { st with metricsMap := aupdate key (setMetricField metricType value entry) st.metricsMap }

/-- The first pass of `parseGPUMetrics` over all responses. -/
def runMetrics (results : List (String × PrometheusResponse)) (now : Nat) : MetricsState :=
  results.foldl (fun st r => r.2.result.foldl (metricsStep now r.1) st) ⟨[], []⟩

/-- The body of the second pass of `parseGPUMetrics` for one record:
copy in the truncated node-scoped utilisations when the node has a side
table entry, otherwise leave the record untouched. -/
def applyOneUtil (nu : List (String × NodeUtil)) (e : GPUMetrics) : GPUMetrics :=
  match alookup e.nodeName nu with
  | some u => { e with cpuUtilization := truncFrac u.cpuUtilization,
                       memoryUtilization := truncFrac u.memoryUtilization }
  | none => e

/-- The second pass of `parseGPUMetrics`: per-key in-place update of the
accumulated map. -/
def applyNodeUtil (nu : List (String × NodeUtil)) (m : List (String × GPUMetrics)) :
    List (String × GPUMetrics) :=
  m.map (fun kv => (kv.1, applyOneUtil nu kv.2))

/-- The accumulated map of `parseGPUMetrics` after both passes. -/
def metricsFinalMap (results : List (String × PrometheusResponse)) (now : Nat) :
    List (String × GPUMetrics) :=
  let st := runMetrics results now
  applyNodeUtil st.nodeUtil st.metricsMap

/-- `parseGPUMetrics` minus the (always nil) error: final map converted
to a slice by appending onto the nil zero value, hence nil when no
record accumulated. -/
def parseGPUMetricsCore (results : List (String × PrometheusResponse)) (now : Nat) :
    GoSlice GPUMetrics :=
  appendAll ((metricsFinalMap results now).map (·.2))

/-- `parseGPUMetrics`: every Go return path yields a nil error. -/
def parseGPUMetrics (results : List (String × PrometheusResponse)) (now : Nat) :
    Except String (GoSlice GPUMetrics) :=
  Except.ok (parseGPUMetricsCore results now)

/-- The identity guard and join key of `parseGPUProcesses`: skip the
point when `hostname`, `gpu_id` or `pid` is empty, else key
`"node:gpu:pid"`. -/
def procKey (p : ResultPoint) : Option String :=
  let nodeName := getLabel p.metric "hostname"
  let gpuIndex := getLabel p.metric "gpu_id"
  let pidStr := getLabel p.metric "pid"
  if nodeName = "" ∨ gpuIndex = "" ∨ pidStr = "" then none
  else some (nodeName ++ ":" ++ gpuIndex ++ ":" ++ pidStr)

/-- The candidate record `parseGPUProcesses` builds when the key is not
yet in the map: identity and descriptive labels of the current point,
zero memory, fresh timestamp. -/
def freshProc (now : Nat) (p : ResultPoint) : GPUProcess :=
  { nodeName := getLabel p.metric "hostname",
    gpuIndex := atoiVal (getLabel p.metric "gpu_id"),
    pid := atoiVal (getLabel p.metric "pid"),
    processName := getLabel p.metric "process_name",
    user := getLabel p.metric "user",
    command := getLabel p.metric "command",
    gpuMemory := 0, timestamp := now }

/-- One point of the `parseGPUProcesses` loop body.  The Go code builds
the candidate record before checking the value and only then executes
`processMap[key] = proc`, so a point whose value is malformed or
unparseable discards the candidate and leaves the map untouched; the
embedding folds the pure guards accordingly. -/
def processStep (now : Nat) (metricType : String) (pm : List (String × GPUProcess))
    (p : ResultPoint) : List (String × GPUProcess) :=
  match procKey p with
  | none => pm
  | some key =>
    let proc := (alookup key pm).getD (freshProc now p)
    match pointVal p with
    | none => pm
    | some v =>
      let proc2 := if metricType = "gpu_memory" then { proc with gpuMemory := truncFrac v }
                   else proc
      aupdate key proc2 pm

/-- The accumulated `processMap` of `parseGPUProcesses` (responses may
be nil pointers, which the Go code skips). -/
def procMapOf (results : List (String × Option PrometheusResponse)) (now : Nat) :
    List (String × GPUProcess) :=
  results.foldl
    (fun pm r =>
      match r.2 with
      | none => pm
      | some resp => resp.result.foldl (processStep now r.1) pm)
    []

/-- The ascending composite order of the `sort.Slice` comparator in
`parseGPUProcesses`: node name lexicographically, then GPU index, then
pid.  `a` may precede `b` exactly when the comparator does not place
`b` strictly before `a`. -/
def ProcKeyLE (a b : GPUProcess) : Prop :=
  a.nodeName < b.nodeName ∨
    (a.nodeName = b.nodeName ∧
      (a.gpuIndex < b.gpuIndex ∨ (a.gpuIndex = b.gpuIndex ∧ a.pid ≤ b.pid)))

instance : DecidableRel ProcKeyLE := fun a b => by unfold ProcKeyLE; exact inferInstance

/-- `parseGPUProcesses` minus the (always nil) error: explicit non-nil
empty slice when the map is empty, else the map's records sorted by the
`sort.Slice` comparator (modelled by a correct sort for the same
order; Go's sort is likewise unstable, so the order is determined on
the key-distinct records it is given). -/
def parseGPUProcessesCore (results : List (String × Option PrometheusResponse)) (now : Nat) :
    GoSlice GPUProcess :=
  let pm := procMapOf results now
  if pm = [] then GoSlice.mkSlice []
  else GoSlice.mkSlice (List.insertionSort ProcKeyLE (pm.map (·.2)))

/-- `parseGPUProcesses`: every Go return path yields a nil error. -/
def parseGPUProcesses (results : List (String × Option PrometheusResponse)) (now : Nat) :
    Except String (GoSlice GPUProcess) :=
  Except.ok (parseGPUProcessesCore results now)

/-- The fixed query table of `GetGPUMetrics`. -/
def gpuMetricsQueries : List (String × String) :=
  [("gpu_mem_free", "gpu_metrics_free_memory"),
   ("gpu_mem_used", "gpu_metrics_used_memory"),
   ("gpu_mem_total", "gpu_metrics_total_memory"),
   ("gpu_utilization", "gpu_metrics_utilization_percent"),
   ("gpu_temperature", "gpu_metrics_temperature"),
   ("cpu_utilization", "gpu_metrics_cpu_utilization"),
   ("memory_utilization", "gpu_metrics_memory_utilization")]

/-- The fixed query table of `GetGPUProcesses`. -/
def gpuProcessQueries : List (String × String) :=
  [("gpu_memory", "gpu_process_gpu_memory")]

/-- The fan-out/fan-in of both aggregation calls at its observable
boundary: every query outcome is joined before any result is used, and
the call fails on a failing query with that query's wrapped error
(`"query %s failed: %w"`), surfacing no partial results.  Which failing
query wins is unspecified in Go (channel order); the model picks the
first in table order. -/
def collectResults (oracle : String → Except String PrometheusResponse) :
    List (String × String) → Except String (List (String × PrometheusResponse))
  | [] => Except.ok []
  | (name, q) :: t =>
    match oracle q with
    | Except.error e => Except.error ("query " ++ name ++ " failed: " ++ e)
    | Except.ok resp =>
      match collectResults oracle t with
      | Except.error e => Except.error e
      | Except.ok rest => Except.ok ((name, resp) :: rest)

/-- `GetGPUMetrics`: run the seven fixed queries, fail fast, else
correlate. -/
def GetGPUMetrics (oracle : String → Except String PrometheusResponse) (now : Nat) :
    Except String (GoSlice GPUMetrics) :=
  match collectResults oracle gpuMetricsQueries with
  | Except.error e => Except.error e
  | Except.ok rs => parseGPUMetrics rs now

/-- `GetGPUProcesses`: run the process query, fail fast, else
correlate (all collected responses are non-nil). -/
def GetGPUProcesses (oracle : String → Except String PrometheusResponse) (now : Nat) :
    Except String (GoSlice GPUProcess) :=
  match collectResults oracle gpuProcessQueries with
  | Except.error e => Except.error e
  | Except.ok rs => parseGPUProcesses (rs.map (fun r => (r.1, some r.2))) now

/-- Every point of every response, in processing order. -/
def allPoints (results : List (String × PrometheusResponse)) : List ResultPoint :=
  (results.map (fun r => r.2.result)).flatten

/-- Does point `p` contribute to the process record keyed `k`: its
identity labels are all non-empty, they form exactly key `k`, and its
value is well-formed and parseable. -/
def contributes (k : String) (p : ResultPoint) : Bool :=
  (procKey p == some k) && (pointVal p).isSome

/-- The contributing points for key `k`, in processing order. -/
def contrib (k : String) (pts : List ResultPoint) : List ResultPoint :=
  pts.filter (contributes k)

/-- The process record determined by the first and the last contributing
point of its key: identity, descriptive labels and timestamp from the
first, GPU memory from the last. -/
def mkProcRec (now : Nat) (pf pl : ResultPoint) : GPUProcess :=
  { freshProc now pf with gpuMemory := truncFrac ((pointVal pl).getD zeroFrac) }

/-- Invariant of the `parseGPUProcesses` accumulation loop for the
deployed single-metric input (`"gpu_memory"`): a key is present in
`processMap` exactly when it has a contributing point among the points
already processed, and the stored record is determined by the first and
the last contributing point for the key. -/
def ProcInv (now : Nat) (pm : List (String × GPUProcess)) (processed : List ResultPoint) :
    Prop :=
  ∀ k : String,
    (alookup k pm = none → contrib k processed = []) ∧
    ∀ rec, alookup k pm = some rec →
      ∃ pf pl, (contrib k processed).head? = some pf ∧
        (contrib k processed).getLast? = some pl ∧ rec = mkProcRec now pf pl

/-! Concrete fixtures used by the scenario theorem, the counterexamples
and the witnesses. -/

/-- A `[timestamp, value]` array holding the observation string `v`. -/
def tsVal (v : String) : List JsonVal :=
  [JsonVal.num 1640995200, JsonVal.str v]

def mkPoint (labels : List (String × String)) (v : String) : ResultPoint :=
  ⟨labels, tsVal v⟩

def gpuLabels6 : List (String × String) :=
  [("hostname", "node1"), ("gpu_id", "0"), ("gpu_name", "X")]

def nodeLabels6 : List (String × String) :=
  [("hostname", "node1")]

/-- The query oracle of the C6 scenario: one GPU point per per-GPU
series with values 8192/8192/16384/75/65, node-scoped cpu 25.5 and
memory 50.0 for `node1`. -/
def oracle6 : String → Except String PrometheusResponse := fun q =>
  if q = "gpu_metrics_free_memory" then Except.ok ⟨[mkPoint gpuLabels6 "8192"]⟩
  else if q = "gpu_metrics_used_memory" then Except.ok ⟨[mkPoint gpuLabels6 "8192"]⟩
  else if q = "gpu_metrics_total_memory" then Except.ok ⟨[mkPoint gpuLabels6 "16384"]⟩
  else if q = "gpu_metrics_utilization_percent" then Except.ok ⟨[mkPoint gpuLabels6 "75"]⟩
  else if q = "gpu_metrics_temperature" then Except.ok ⟨[mkPoint gpuLabels6 "65"]⟩
  else if q = "gpu_metrics_cpu_utilization" then Except.ok ⟨[mkPoint nodeLabels6 "25.5"]⟩
  else if q = "gpu_metrics_memory_utilization" then Except.ok ⟨[mkPoint nodeLabels6 "50.0"]⟩
  else Except.ok ⟨[]⟩

/-- The single record the C6 scenario must produce. -/
def rec6 : GPUMetrics :=
  { nodeName := "node1", gpuIndex := 0, gpuName := "X",
    gpuMemoryFree := 8192, gpuMemoryUsed := 8192, gpuMemoryTotal := 16384,
    gpuUtilization := 75, gpuTemperature := 65, cpuUtilization := 25,
    memoryUtilization := 50, timestamp := 0 }

/-- A process point whose value string does not parse as a number. -/
def c2point : ResultPoint :=
  mkPoint [("hostname", "n1"), ("gpu_id", "0"), ("pid", "1")] "abc"

/-- A process point with a non-empty but numerically unparseable `pid`
label and a parseable value. -/
def c5point : ResultPoint :=
  mkPoint [("hostname", "n1"), ("gpu_id", "0"), ("pid", "abc"), ("process_name", "python")] "100"

/-- The record the code emits for `c5point`: the unparseable pid comes
out as 0 instead of the point being skipped. -/
def c5rec : GPUProcess :=
  { nodeName := "n1", gpuIndex := 0, pid := 0, processName := "python",
    user := "", command := "", gpuMemory := 100, timestamp := 0 }

/-- Two points for the same process key: the first has an unparseable
value, the second a parseable one; descriptive labels differ. -/
def w8p1 : ResultPoint :=
  mkPoint [("hostname", "n1"), ("gpu_id", "0"), ("pid", "1"), ("process_name", "first")] "abc"

def w8p2 : ResultPoint :=
  mkPoint [("hostname", "n1"), ("gpu_id", "0"), ("pid", "1"), ("process_name", "second")] "100"

def w8resp : PrometheusResponse := ⟨[w8p1, w8p2]⟩

/-- The record actually stored for key `"n1:0:1"` from `w8resp`:
everything from the second point, the first having been discarded. -/
def w8rec : GPUProcess :=
  { nodeName := "n1", gpuIndex := 0, pid := 1, processName := "second",
    user := "", command := "", gpuMemory := 100, timestamp := 0 }

/-- One valid free-memory point, canonical labels. -/
def w4results : List (String × PrometheusResponse) :=
  [("gpu_mem_free", ⟨[mkPoint gpuLabels6 "8192"]⟩)]

/-- The record `w4results` produces. -/
def w4rec : GPUMetrics :=
  { nodeName := "node1", gpuIndex := 0, gpuName := "X",
    gpuMemoryFree := 8192, gpuMemoryUsed := 0, gpuMemoryTotal := 0,
    gpuUtilization := 0, gpuTemperature := 0, cpuUtilization := 0,
    memoryUtilization := 0, timestamp := 0 }

/-- A point whose `Value` array is too short (no observation string). -/
def w9point : ResultPoint :=
  ⟨[("hostname", "n1"), ("gpu_id", "0"), ("pid", "1")], [JsonVal.num 1640995200]⟩

/-- An oracle on which every query fails. -/
def failOracle : String → Except String PrometheusResponse := fun _ =>
  Except.error "boom"

/-- An oracle on which every query succeeds with an empty result. -/
def okOracle : String → Except String PrometheusResponse := fun _ =>
  Except.ok ⟨[]⟩

/-- An empty accumulation state. -/
def st0 : MetricsState := ⟨[], []⟩

/-! Helper lemmas about the association-list model of Go maps. -/

theorem alookup_aupdate_self {β : Type} (k : String) (v : β) (m : List (String × β)) :
    alookup k (aupdate k v m) = some v := by
  induction m with
  | nil => simp [aupdate, alookup]
  | cons kv t ih =>
    obtain ⟨k2, v2⟩ := kv
    by_cases h : k = k2
    · simp [aupdate, h, alookup]
    · simp [aupdate, h, alookup, ih]

theorem alookup_aupdate_ne {β : Type} {k k2 : String} (h : k ≠ k2) (v : β)
    (m : List (String × β)) : alookup k (aupdate k2 v m) = alookup k m := by
  induction m with
  | nil => simp [aupdate, alookup, h]
  | cons kv t ih =>
    obtain ⟨k3, v3⟩ := kv
    by_cases h2 : k2 = k3
    · subst h2; simp [aupdate, alookup, h]
    · by_cases h3 : k = k3
      · simp [aupdate, h2, alookup, h3]
      · simp [aupdate, h2, alookup, h3, ih]

theorem alookup_some_mem {β : Type} {k : String} {v : β} {m : List (String × β)}
    (h : alookup k m = some v) : (k, v) ∈ m := by
  induction m with
  | nil => simp [alookup] at h
  | cons kv t ih =>
    obtain ⟨k2, v2⟩ := kv
    by_cases h2 : k = k2
    · subst h2
      simp [alookup] at h
      simp [h]
    · simp [alookup, h2] at h
      exact List.mem_cons_of_mem _ (ih h)

theorem mem_aupdate {β : Type} {k2 : String} {v2 : β} {k : String} {v : β}
    {m : List (String × β)} (h : (k2, v2) ∈ aupdate k v m) :
    (k2 = k ∧ v2 = v) ∨ (k2, v2) ∈ m := by
  induction m with
  | nil =>
    simp [aupdate] at h
    exact Or.inl h
  | cons kv t ih =>
    obtain ⟨k3, v3⟩ := kv
    by_cases h3 : k = k3
    · subst h3
      simp [aupdate] at h
      rcases h with ⟨h1, h2⟩ | h
      · exact Or.inl ⟨h1, h2⟩
      · exact Or.inr (List.mem_cons_of_mem _ h)
    · simp [aupdate, h3] at h
      rcases h with ⟨h1, h2⟩ | h
      · subst h1; subst h2; exact Or.inr (List.mem_cons_self _ _)
      · rcases ih h with h | h
        · exact Or.inl h
        · exact Or.inr (List.mem_cons_of_mem _ h)

theorem alookup_map_values {β γ : Type} (f : β → γ) (k : String) (m : List (String × β)) :
    alookup k (m.map (fun kv => (kv.1, f kv.2))) = (alookup k m).map f := by
  induction m with
  | nil => simp [alookup]
  | cons kv t ih =>
    obtain ⟨k2, v2⟩ := kv
    by_cases h : k = k2
    · simp [alookup, h]
    · simp [alookup, h, ih]

theorem appendAll_toList {α : Type} (l : List α) : (appendAll l).toList = l := by
  cases l <;> rfl

theorem mem_of_head?_eq {α : Type} {l : List α} {a : α} (h : l.head? = some a) : a ∈ l := by
  cases l with
  | nil => simp at h
  | cons x t =>
    simp [List.head?] at h
    simp [h]

theorem mem_of_getLast?_eq {α : Type} {l : List α} {a : α} (h : l.getLast? = some a) :
    a ∈ l := by
  induction l with
  | nil => simp at h
  | cons x t ih =>
    cases t with
    | nil =>
      simp [List.getLast?] at h
      simp [h]
    | cons y u =>
      rw [List.getLast?_cons_cons] at h
      exact List.mem_cons_of_mem _ (ih h)

/-! Helper lemmas about the composite process order. -/

theorem procKeyLE_total (a b : GPUProcess) : ProcKeyLE a b ∨ ProcKeyLE b a := by
  unfold ProcKeyLE
  rcases lt_trichotomy a.nodeName b.nodeName with h | h | h
  · exact Or.inl (Or.inl h)
  · rcases lt_trichotomy a.gpuIndex b.gpuIndex with h2 | h2 | h2
    · exact Or.inl (Or.inr ⟨h, Or.inl h2⟩)
    · rcases le_total a.pid b.pid with h3 | h3
      · exact Or.inl (Or.inr ⟨h, Or.inr ⟨h2, h3⟩⟩)
      · exact Or.inr (Or.inr ⟨h.symm, Or.inr ⟨h2.symm, h3⟩⟩)
    · exact Or.inr (Or.inr ⟨h.symm, Or.inl h2⟩)
  · exact Or.inr (Or.inl h)

theorem procKeyLE_trans (a b c : GPUProcess) (hab : ProcKeyLE a b) (hbc : ProcKeyLE b c) :
    ProcKeyLE a c := by
  unfold ProcKeyLE at hab hbc ⊢
  rcases hab with hab | ⟨hab, hab2⟩
  · rcases hbc with hbc | ⟨hbc, _⟩
    · exact Or.inl (lt_trans hab hbc)
    · exact Or.inl (hbc ▸ hab)
  · rcases hbc with hbc | ⟨hbc, hbc2⟩
    · exact Or.inl (hab ▸ hbc)
    · refine Or.inr ⟨hab.trans hbc, ?_⟩
      rcases hab2 with h2 | ⟨h2, h3⟩
      · rcases hbc2 with h4 | ⟨h4, _⟩
        · exact Or.inl (lt_trans h2 h4)
        · exact Or.inl (h4 ▸ h2)
      · rcases hbc2 with h4 | ⟨h4, h5⟩
        · exact Or.inl (h2 ▸ h4)
        · exact Or.inr ⟨h2.trans h4, h3.trans h5⟩

instance : IsTotal GPUProcess ProcKeyLE := ⟨procKeyLE_total⟩

instance : IsTrans GPUProcess ProcKeyLE := ⟨procKeyLE_trans⟩

/-! The claims. -/

/-- Claim C1: for every input response set, the sequence returned by
`GetGPUProcesses`/`parseGPUProcesses` is sorted ascending by the
composite key (node name lexicographic, then GPU index, then pid): the
ordering holds for every pair of emitted records, adjacent ones
included. -/
theorem claim1_processes_sorted (results : List (String × Option PrometheusResponse))
    (now : Nat) :
    ∃ s, parseGPUProcesses results now = Except.ok s ∧ List.Sorted ProcKeyLE s.toList := by
  refine ⟨parseGPUProcessesCore results now, rfl, ?_⟩
  unfold parseGPUProcessesCore
  by_cases h : procMapOf results now = []
  · simp [h, GoSlice.toList]
  · simp only [h, if_neg, GoSlice.toList]
    exact List.sorted_insertionSort ProcKeyLE _

/-- Claim C6: the scenario input (free 8192, used 8192, total 16384,
utilization 75, temperature 65 for (node1, 0), node-scoped cpu 25.5 and
memory 50.0 for node1) produces exactly one record with free 8192,
used 8192, total 16384, utilization 75, temperature 65, cpu 25 and
mem 50 — node-scoped floats truncated, not rounded. -/
theorem claim6_scenario :
    GetGPUMetrics oracle6 0 = Except.ok (GoSlice.mkSlice [rec6]) := rfl

/-- Claim C3 counterexample: on empty input `parseGPUMetrics` returns
the Go nil slice — which serialises as JSON `null` —, not a non-null
empty sequence; shown both for an empty result mapping and for the
full seven-query call with empty responses, and the nil slice is
distinct from the materialised empty slice `parseGPUProcesses`
returns. -/
theorem claim3_counterexample :
    parseGPUMetrics [] 0 = Except.ok GoSlice.nilSlice ∧
      GetGPUMetrics okOracle 0 = Except.ok GoSlice.nilSlice ∧
      GoSlice.nilSlice ≠ (GoSlice.mkSlice [] : GoSlice GPUMetrics) :=
  ⟨rfl, rfl, by decide⟩

/-- Claim C3 (amended): when the input contributes zero records,
neither correlator errors; `parseGPUProcesses` returns an explicitly
empty, non-nil slice, but `parseGPUMetrics` returns the nil slice
(JSON `null`), not an explicitly empty one. -/
theorem claim3_empty_output_shape (presults : List (String × Option PrometheusResponse))
    (mresults : List (String × PrometheusResponse)) (now : Nat)
    (hp : procMapOf presults now = []) (hm : metricsFinalMap mresults now = []) :
    parseGPUProcesses presults now = Except.ok (GoSlice.mkSlice []) ∧
      parseGPUMetrics mresults now = Except.ok GoSlice.nilSlice := by
  constructor
  · unfold parseGPUProcesses parseGPUProcessesCore
    simp [hp]
  · unfold parseGPUMetrics parseGPUMetricsCore
    simp [hm, appendAll]

theorem claim3_witness :
    procMapOf [] 0 = [] ∧ metricsFinalMap [] 0 = [] ∧
      (parseGPUProcesses [] 0 = Except.ok (GoSlice.mkSlice []) ∧
        parseGPUMetrics [] 0 = Except.ok GoSlice.nilSlice) :=
  ⟨rfl, rfl, claim3_empty_output_shape [] [] 0 rfl rfl⟩

/-- Claim C5 counterexample: a point whose `pid` label is non-empty but
numerically unparseable is not skipped: with a parseable value it
produces a record whose pid is `Atoi`'s discarded-error result 0. -/
theorem claim5_counterexample :
    parseGPUProcessesCore [("gpu_memory", some ⟨[c5point]⟩)] 0 =
      GoSlice.mkSlice [c5rec] ∧ atoiVal "abc" = 0 := by decide

/-- Claim C5 (amended): in the Process Correlator, every point whose
`hostname`, `gpu_id` or `pid` label is empty is skipped entirely — no
record and no partial record is created from it, and other valid
points in the same batch are unaffected.  (A non-empty but numerically
unparseable `gpu_id` or `pid` does not cause a skip: the record is
created with that identity field parsed as zero, as the counterexample
shows.) -/
theorem claim5_empty_label_skips (now : Nat) (mt : String)
    (pm : List (String × GPUProcess)) (p : ResultPoint)
    (h : getLabel p.metric "hostname" = "" ∨ getLabel p.metric "gpu_id" = "" ∨
      getLabel p.metric "pid" = "") :
    processStep now mt pm p = pm := by
  have hk : procKey p = none := by
    unfold procKey
    rcases h with h | h | h <;> simp [h]
  unfold processStep
  simp [hk]

theorem claim5_witness :
    (getLabel (⟨[("gpu_id", "0"), ("pid", "1")], tsVal "100"⟩ : ResultPoint).metric
        "hostname" = "" ∨
      getLabel (⟨[("gpu_id", "0"), ("pid", "1")], tsVal "100"⟩ : ResultPoint).metric
        "gpu_id" = "" ∨
      getLabel (⟨[("gpu_id", "0"), ("pid", "1")], tsVal "100"⟩ : ResultPoint).metric
        "pid" = "") ∧
      processStep 0 "gpu_memory" [] ⟨[("gpu_id", "0"), ("pid", "1")], tsVal "100"⟩ = [] :=
  ⟨Or.inl (by decide),
    claim5_empty_label_skips 0 "gpu_memory" [] _ (Or.inl (by decide))⟩

/-- Claim C2 counterexample: `c2point`'s key is well-formed
(`"n1:0:1"`) but its value does not parse; as the key's only
contributing point it produces no record at all — the output is the
empty slice, so no record with zero memory remains for that key. -/
theorem claim2_counterexample :
    procKey c2point = some "n1:0:1" ∧ pointVal c2point = none ∧
      parseGPUProcessesCore [("gpu_memory", some ⟨[c2point]⟩)] 0 =
        GoSlice.mkSlice [] := by decide

/-- Claim C2 (amended): a point whose value string does not parse as a
base-10 floating point number never fails the correlation call (both
parse functions return a nil error on every path) and contributes
nothing: it leaves both correlators' accumulation state unchanged, so
the numeric field it would have set stays at its default zero.  In the
Process Correlator the record is only stored together with a
successfully parsed value, so if the failed point was its key's only
contributing point, no record for that key is emitted at all (rather
than a record with zero memory). -/
theorem claim2_unparseable_value_skips (mresults : List (String × PrometheusResponse))
    (presults : List (String × Option PrometheusResponse)) (now : Nat) (mt : String)
    (st : MetricsState) (pm : List (String × GPUProcess)) (p : ResultPoint) (s : String)
    (hs : valueString p.value = some s) (hf : parseFloat s = none) :
    parseGPUMetrics mresults now = Except.ok (parseGPUMetricsCore mresults now) ∧
      parseGPUProcesses presults now = Except.ok (parseGPUProcessesCore presults now) ∧
      metricsStep now mt st p = st ∧ processStep now mt pm p = pm := by
  have hv : pointVal p = none := by
    unfold pointVal
    rw [hs]
    simpa using hf
  refine ⟨rfl, rfl, ?_, ?_⟩
  · unfold metricsStep
    by_cases h : getLabel p.metric "hostname" = "" <;> simp [h, hv]
  · unfold processStep
    cases hk : procKey p <;> simp [hv]

theorem claim2_witness :
    valueString c2point.value = some "abc" ∧ parseFloat "abc" = none ∧
      (parseGPUMetrics [] 0 = Except.ok (parseGPUMetricsCore [] 0) ∧
        parseGPUProcesses [] 0 = Except.ok (parseGPUProcessesCore [] 0) ∧
        metricsStep 0 "gpu_mem_free" st0 c2point = st0 ∧
        processStep 0 "gpu_memory" [] c2point = []) :=
  ⟨by decide, by decide,
    claim2_unparseable_value_skips [] [] 0 "gpu_mem_free" st0 [] c2point "abc"
      (by decide) (by decide)⟩

/-- Claim C9: a point whose `Value` array has fewer than two elements,
or whose second element is not a string, is handled totally by both
correlators: it contributes nothing to any record or to the node-scoped
side table, no field is partially set, and no failure arises — the
guard makes the out-of-bounds/ill-typed access unreachable. -/
theorem claim9_malformed_value_total (now : Nat) (mt : String) (st : MetricsState)
    (pm : List (String × GPUProcess)) (p : ResultPoint)
    (h : p.value.length < 2 ∨ ∀ s, p.value.get? 1 ≠ some (JsonVal.str s)) :
    metricsStep now mt st p = st ∧ processStep now mt pm p = pm := by
  have hvs : valueString p.value = none := by
    unfold valueString
    by_cases hlen : p.value.length < 2
    · simp [hlen]
    · rw [if_neg hlen]
      rcases h with h | h
      · exact absurd h hlen
      cases hg : p.value.get? 1 with
      | none => rfl
      | some jv =>
        cases jv with
        | str s => exact absurd hg (h s)
        | num n => rfl
        | null => rfl
  have hv : pointVal p = none := by
    unfold pointVal
    rw [hvs]
    rfl
  constructor
  · unfold metricsStep
    by_cases h2 : getLabel p.metric "hostname" = "" <;> simp [h2, hv]
  · unfold processStep
    cases hk : procKey p <;> simp [hv]

theorem claim9_witness :
    (w9point.value.length < 2 ∨ ∀ s, w9point.value.get? 1 ≠ some (JsonVal.str s)) ∧
      metricsStep 0 "gpu_mem_free" st0 w9point = st0 ∧
      processStep 0 "gpu_memory" [] w9point = [] :=
  ⟨Or.inl (by decide),
    claim9_malformed_value_total 0 "gpu_mem_free" st0 [] w9point (Or.inl (by decide))⟩

/-! Fail-fast behaviour of the query fan-out. -/

theorem collectResults_error_of_mem (oracle : String → Except String PrometheusResponse)
    (qs : List (String × String))
    (h : ∃ nq ∈ qs, ∃ e, oracle nq.2 = Except.error e) :
    ∃ nq ∈ qs, ∃ e, oracle nq.2 = Except.error e ∧
      collectResults oracle qs = Except.error ("query " ++ nq.1 ++ " failed: " ++ e) := by
  induction qs with
  | nil => simp at h
  | cons nq t ih =>
    obtain ⟨name, q⟩ := nq
    cases ho : oracle q with
    | error e =>
      exact ⟨(name, q), List.mem_cons_self _ _, e, ho, by simp [collectResults, ho]⟩
    | ok resp =>
      have ht : ∃ nq ∈ t, ∃ e, oracle nq.2 = Except.error e := by
        rcases h with ⟨nq2, hmem, e, he⟩
        rcases List.mem_cons.mp hmem with rfl | hmem2
        · exact Except.noConfusion (ho.symm.trans he)
        · exact ⟨nq2, hmem2, e, he⟩
      rcases ih ht with ⟨nq2, hmem2, e, he, hc⟩
      exact ⟨nq2, List.mem_cons_of_mem _ hmem2, e, he, by simp [collectResults, ho, hc]⟩

theorem collectResults_ok_of_all (oracle : String → Except String PrometheusResponse)
    (qs : List (String × String)) (h : ∀ nq ∈ qs, ∃ r, oracle nq.2 = Except.ok r) :
    ∃ rs, collectResults oracle qs = Except.ok rs := by
  induction qs with
  | nil => exact ⟨[], rfl⟩
  | cons nq t ih =>
    obtain ⟨name, q⟩ := nq
    obtain ⟨r, hr⟩ := h (name, q) (List.mem_cons_self _ _)
    obtain ⟨rs, hrs⟩ := ih (fun nq2 hm => h nq2 (List.mem_cons_of_mem _ hm))
    exact ⟨(name, r) :: rs, by simp [collectResults, hr, hrs]⟩

/-- Claim C7: if any constituent query of an aggregation call fails, the
whole call (`GetGPUMetrics` or `GetGPUProcesses`) returns a failing
query's wrapped error and no record sequence at all; conversely, when
every query succeeds the call returns no error. -/
theorem claim7_fail_fast (oracle : String → Except String PrometheusResponse) (now : Nat) :
    ((∃ nq ∈ gpuMetricsQueries, ∃ e, oracle nq.2 = Except.error e) →
        ∃ nq ∈ gpuMetricsQueries, ∃ e, oracle nq.2 = Except.error e ∧
          GetGPUMetrics oracle now = Except.error ("query " ++ nq.1 ++ " failed: " ++ e)) ∧
      ((∀ nq ∈ gpuMetricsQueries, ∃ r, oracle nq.2 = Except.ok r) →
        ∃ s, GetGPUMetrics oracle now = Except.ok s) ∧
      ((∃ nq ∈ gpuProcessQueries, ∃ e, oracle nq.2 = Except.error e) →
        ∃ nq ∈ gpuProcessQueries, ∃ e, oracle nq.2 = Except.error e ∧
          GetGPUProcesses oracle now = Except.error ("query " ++ nq.1 ++ " failed: " ++ e)) ∧
      ((∀ nq ∈ gpuProcessQueries, ∃ r, oracle nq.2 = Except.ok r) →
        ∃ s, GetGPUProcesses oracle now = Except.ok s) := by
  refine ⟨?_, ?_, ?_, ?_⟩
  · intro h
    rcases collectResults_error_of_mem oracle gpuMetricsQueries h with ⟨nq, hm, e, he, hc⟩
    exact ⟨nq, hm, e, he, by simp [GetGPUMetrics, hc]⟩
  · intro h
    rcases collectResults_ok_of_all oracle gpuMetricsQueries h with ⟨rs, hc⟩
    exact ⟨parseGPUMetricsCore rs now, by simp [GetGPUMetrics, hc, parseGPUMetrics]⟩
  · intro h
    rcases collectResults_error_of_mem oracle gpuProcessQueries h with ⟨nq, hm, e, he, hc⟩
    exact ⟨nq, hm, e, he, by simp [GetGPUProcesses, hc]⟩
  · intro h
    rcases collectResults_ok_of_all oracle gpuProcessQueries h with ⟨rs, hc⟩
    exact ⟨parseGPUProcessesCore (rs.map (fun r => (r.1, some r.2))) now,
      by simp [GetGPUProcesses, hc, parseGPUProcesses]⟩

theorem claim7_witness :
    (∃ nq ∈ gpuMetricsQueries, ∃ e, failOracle nq.2 = Except.error e ∧
        GetGPUMetrics failOracle 0 = Except.error ("query " ++ nq.1 ++ " failed: " ++ e)) ∧
      ∃ s, GetGPUMetrics okOracle 0 = Except.ok s :=
  ⟨(claim7_fail_fast failOracle 0).1
      ⟨("gpu_mem_free", "gpu_metrics_free_memory"), by decide, "boom", rfl⟩,
    (claim7_fail_fast okOracle 0).2.1 (fun _ _ => ⟨⟨[]⟩, rfl⟩)⟩

/-! Shape lemmas for the first pass of `parseGPUMetrics`. -/

theorem metricsStep_skip_host {p : ResultPoint} (now : Nat) (mt : String) (st : MetricsState)
    (h : getLabel p.metric "hostname" = "") : metricsStep now mt st p = st := by
  unfold metricsStep
  simp [h]

theorem metricsStep_skip_val {p : ResultPoint} (now : Nat) (mt : String) (st : MetricsState)
    (hv : pointVal p = none) : metricsStep now mt st p = st := by
  unfold metricsStep
  by_cases h : getLabel p.metric "hostname" = "" <;> simp [h, hv]

theorem metricsStep_node {p : ResultPoint} {v : Frac} (now : Nat) (mt : String)
    (st : MetricsState) (h1 : ¬getLabel p.metric "hostname" = "") (hv : pointVal p = some v)
    (hmt : mt = "cpu_utilization" ∨ mt = "memory_utilization") :
    metricsStep now mt st p =
      (let u := (alookup (getLabel p.metric "hostname") st.nodeUtil).getD zeroNodeUtil
      let u2 := if mt = "cpu_utilization" then { u with cpuUtilization := v }
                else { u with memoryUtilization := v }
      { st with nodeUtil := aupdate (getLabel p.metric "hostname") u2 st.nodeUtil }) := by
  unfold metricsStep
  simp [h1, hv, hmt]

theorem metricsStep_skip_gpu {p : ResultPoint} {v : Frac} (now : Nat) (mt : String)
    (st : MetricsState) (h1 : ¬getLabel p.metric "hostname" = "") (hv : pointVal p = some v)
    (hmt : ¬(mt = "cpu_utilization" ∨ mt = "memory_utilization"))
    (h2 : getLabel p.metric "gpu_id" = "") : metricsStep now mt st p = st := by
  unfold metricsStep
  simp [h1, hv, hmt, h2]

theorem metricsStep_gpu {p : ResultPoint} {v : Frac} (now : Nat) (mt : String)
    (st : MetricsState) (h1 : ¬getLabel p.metric "hostname" = "") (hv : pointVal p = some v)
    (hmt : ¬(mt = "cpu_utilization" ∨ mt = "memory_utilization"))
    (h2 : ¬getLabel p.metric "gpu_id" = "") :
    metricsStep now mt st p =
      (let key := getLabel p.metric "hostname" ++ ":" ++ getLabel p.metric "gpu_id"
      let entry := (alookup key st.metricsMap).getD
        (freshMetrics now (getLabel p.metric "hostname") (getLabel p.metric "gpu_id")
          (getLabel p.metric "gpu_name"))
      { st with metricsMap := aupdate key (setMetricField mt v entry) st.metricsMap }) := by
  unfold metricsStep
  simp [h1, hv, hmt, h2]

theorem setMetricField_frame (mt : String) (v : Frac) (e : GPUMetrics) :
    (setMetricField mt v e).nodeName = e.nodeName ∧
      (setMetricField mt v e).gpuIndex = e.gpuIndex ∧
      (setMetricField mt v e).cpuUtilization = e.cpuUtilization ∧
      (setMetricField mt v e).memoryUtilization = e.memoryUtilization := by
  unfold setMetricField
  split_ifs <;> simp

theorem metricsStep_entry_pres (P : GPUMetrics → Prop) (now : Nat) (mt : String)
    (st : MetricsState) (p : ResultPoint) (hst : ∀ kv ∈ st.metricsMap, P kv.2)
    (hfresh : ¬getLabel p.metric "hostname" = "" → ¬getLabel p.metric "gpu_id" = "" →
      P (freshMetrics now (getLabel p.metric "hostname") (getLabel p.metric "gpu_id")
          (getLabel p.metric "gpu_name")))
    (hset : ∀ mt2 v e, P e → P (setMetricField mt2 v e)) :
    ∀ kv ∈ (metricsStep now mt st p).metricsMap, P kv.2 := by
  by_cases h1 : getLabel p.metric "hostname" = ""
  · rw [metricsStep_skip_host now mt st h1]; exact hst
  cases hv : pointVal p with
  | none => rw [metricsStep_skip_val now mt st hv]; exact hst
  | some v =>
    by_cases hmt : mt = "cpu_utilization" ∨ mt = "memory_utilization"
    · rw [metricsStep_node now mt st h1 hv hmt]
      exact hst
    by_cases h2 : getLabel p.metric "gpu_id" = ""
    · rw [metricsStep_skip_gpu now mt st h1 hv hmt h2]; exact hst
    rw [metricsStep_gpu now mt st h1 hv hmt h2]
    intro kv hkv
    obtain ⟨k2, v2⟩ := kv
    rcases mem_aupdate hkv with ⟨_, hv2⟩ | hmem
    · subst hv2
      apply hset
      cases hl : alookup (getLabel p.metric "hostname" ++ ":" ++ getLabel p.metric "gpu_id")
          st.metricsMap with
      | none => exact hfresh h1 h2
      | some e0 => exact hst _ (alookup_some_mem hl)
    · exact hst _ hmem

theorem foldPoints_entry_pres (P : GPUMetrics → Prop) (now : Nat) (mt : String)
    (pts : List ResultPoint) (st : MetricsState) (hst : ∀ kv ∈ st.metricsMap, P kv.2)
    (hfresh : ∀ p ∈ pts, ¬getLabel p.metric "hostname" = "" →
      ¬getLabel p.metric "gpu_id" = "" →
      P (freshMetrics now (getLabel p.metric "hostname") (getLabel p.metric "gpu_id")
          (getLabel p.metric "gpu_name")))
    (hset : ∀ mt2 v e, P e → P (setMetricField mt2 v e)) :
    ∀ kv ∈ (pts.foldl (metricsStep now mt) st).metricsMap, P kv.2 := by
  induction pts generalizing st with
  | nil => exact hst
  | cons q t ih =>
    intro kv hkv
    exact ih (metricsStep now mt st q)
      (metricsStep_entry_pres P now mt st q hst (hfresh q (List.mem_cons_self _ _)) hset)
      (fun p hp => hfresh p (List.mem_cons_of_mem _ hp)) kv hkv

theorem allPoints_cons (r : String × PrometheusResponse)
    (t : List (String × PrometheusResponse)) :
    allPoints (r :: t) = r.2.result ++ allPoints t := by
  simp [allPoints]

theorem foldResults_entry_pres (P : GPUMetrics → Prop) (now : Nat)
    (rs : List (String × PrometheusResponse)) (st : MetricsState)
    (hst : ∀ kv ∈ st.metricsMap, P kv.2)
    (hfresh : ∀ p ∈ allPoints rs, ¬getLabel p.metric "hostname" = "" →
      ¬getLabel p.metric "gpu_id" = "" →
      P (freshMetrics now (getLabel p.metric "hostname") (getLabel p.metric "gpu_id")
          (getLabel p.metric "gpu_name")))
    (hset : ∀ mt2 v e, P e → P (setMetricField mt2 v e)) :
    ∀ kv ∈ (rs.foldl (fun st2 r => r.2.result.foldl (metricsStep now r.1) st2)
        st).metricsMap, P kv.2 := by
  induction rs generalizing st with
  | nil => exact hst
  | cons r t ih =>
    intro kv hkv
    refine ih _ ?_ (fun p hp => hfresh p ?_) kv hkv
    · exact foldPoints_entry_pres P now r.1 r.2.result st hst
        (fun p hp => hfresh p (by rw [allPoints_cons]; exact List.mem_append_left _ hp)) hset
    · rw [allPoints_cons]
      exact List.mem_append_right _ hp

theorem runMetrics_entry_pres (P : GPUMetrics → Prop)
    (results : List (String × PrometheusResponse)) (now : Nat)
    (hfresh : ∀ p ∈ allPoints results, ¬getLabel p.metric "hostname" = "" →
      ¬getLabel p.metric "gpu_id" = "" →
      P (freshMetrics now (getLabel p.metric "hostname") (getLabel p.metric "gpu_id")
          (getLabel p.metric "gpu_name")))
    (hset : ∀ mt2 v e, P e → P (setMetricField mt2 v e)) :
    ∀ kv ∈ (runMetrics results now).metricsMap, P kv.2 := by
  intro kv hkv
  exact foldResults_entry_pres P now results ⟨[], []⟩ (by intro kv h; cases h) hfresh hset
    kv hkv

theorem runMetrics_util_zero (results : List (String × PrometheusResponse)) (now : Nat) :
    ∀ kv ∈ (runMetrics results now).metricsMap,
      kv.2.cpuUtilization = 0 ∧ kv.2.memoryUtilization = 0 := by
  refine runMetrics_entry_pres
    (fun e => e.cpuUtilization = 0 ∧ e.memoryUtilization = 0) results now ?_ ?_
  · intro p _ _ _
    simp [freshMetrics]
  · intro mt2 v e he
    rcases setMetricField_frame mt2 v e with ⟨_, _, hc, hm⟩
    exact ⟨hc.trans he.1, hm.trans he.2⟩

/-! Shape lemmas for the second pass of `parseGPUMetrics`. -/

theorem applyNodeUtil_keys (nu : List (String × NodeUtil)) (m : List (String × GPUMetrics)) :
    (applyNodeUtil nu m).map Prod.fst = m.map Prod.fst := by
  unfold applyNodeUtil
  induction m with
  | nil => rfl
  | cons kv t ih => simp [ih]

theorem alookup_applyNodeUtil (nu : List (String × NodeUtil))
    (m : List (String × GPUMetrics)) (k : String) :
    alookup k (applyNodeUtil nu m) = (alookup k m).map (applyOneUtil nu) :=
  alookup_map_values (applyOneUtil nu) k m

theorem applyOneUtil_frame (nu : List (String × NodeUtil)) (e : GPUMetrics) :
    (applyOneUtil nu e).nodeName = e.nodeName ∧
      (applyOneUtil nu e).gpuIndex = e.gpuIndex ∧
      (applyOneUtil nu e).gpuName = e.gpuName ∧
      (applyOneUtil nu e).gpuMemoryFree = e.gpuMemoryFree ∧
      (applyOneUtil nu e).gpuMemoryUsed = e.gpuMemoryUsed ∧
      (applyOneUtil nu e).gpuMemoryTotal = e.gpuMemoryTotal ∧
      (applyOneUtil nu e).gpuUtilization = e.gpuUtilization ∧
      (applyOneUtil nu e).gpuTemperature = e.gpuTemperature ∧
      (applyOneUtil nu e).timestamp = e.timestamp ∧
      (alookup e.nodeName nu = none → applyOneUtil nu e = e) := by
  unfold applyOneUtil
  cases h : alookup e.nodeName nu <;> simp [h]

/-- Claim C10: the second pass of `parseGPUMetrics` preserves the key
set of the accumulated GPU records and modifies only the two
utilisation fields: every other field of every record is unchanged, and
a record whose node has no side-table entry is left untouched with both
utilisation fields still at their initial zero. -/
theorem claim10_second_pass_frame (results : List (String × PrometheusResponse)) (now : Nat) :
    metricsFinalMap results now =
        applyNodeUtil (runMetrics results now).nodeUtil (runMetrics results now).metricsMap ∧
      (metricsFinalMap results now).map Prod.fst =
        (runMetrics results now).metricsMap.map Prod.fst ∧
      ∀ k e, alookup k (runMetrics results now).metricsMap = some e →
        ∃ e2, alookup k (metricsFinalMap results now) = some e2 ∧
          e2.nodeName = e.nodeName ∧ e2.gpuIndex = e.gpuIndex ∧ e2.gpuName = e.gpuName ∧
          e2.gpuMemoryFree = e.gpuMemoryFree ∧ e2.gpuMemoryUsed = e.gpuMemoryUsed ∧
          e2.gpuMemoryTotal = e.gpuMemoryTotal ∧ e2.gpuUtilization = e.gpuUtilization ∧
          e2.gpuTemperature = e.gpuTemperature ∧ e2.timestamp = e.timestamp ∧
          (alookup e.nodeName (runMetrics results now).nodeUtil = none →
            e2 = e ∧ e2.cpuUtilization = 0 ∧ e2.memoryUtilization = 0) := by
  refine ⟨rfl, applyNodeUtil_keys _ _, ?_⟩
  intro k e he
  refine ⟨applyOneUtil (runMetrics results now).nodeUtil e, ?_, ?_⟩
  · rw [show metricsFinalMap results now =
        applyNodeUtil (runMetrics results now).nodeUtil (runMetrics results now).metricsMap
      from rfl, alookup_applyNodeUtil, he]
    rfl
  · obtain ⟨f1, f2, f3, f4, f5, f6, f7, f8, f9, hnone⟩ :=
      applyOneUtil_frame (runMetrics results now).nodeUtil e
    refine ⟨f1, f2, f3, f4, f5, f6, f7, f8, f9, ?_⟩
    intro hn
    obtain ⟨hz1, hz2⟩ := runMetrics_util_zero results now (k, e) (alookup_some_mem he)
    rw [hnone hn]
    exact ⟨rfl, hz1, hz2⟩

theorem claim10_witness :
    metricsFinalMap w4results 0 =
        applyNodeUtil (runMetrics w4results 0).nodeUtil (runMetrics w4results 0).metricsMap ∧
      (∃ e2, alookup "node1:0" (metricsFinalMap w4results 0) = some e2 ∧
        e2.nodeName = w4rec.nodeName ∧ e2.gpuIndex = w4rec.gpuIndex ∧
        e2.gpuName = w4rec.gpuName ∧ e2.gpuMemoryFree = w4rec.gpuMemoryFree ∧
        e2.gpuMemoryUsed = w4rec.gpuMemoryUsed ∧ e2.gpuMemoryTotal = w4rec.gpuMemoryTotal ∧
        e2.gpuUtilization = w4rec.gpuUtilization ∧ e2.gpuTemperature = w4rec.gpuTemperature ∧
        e2.timestamp = w4rec.timestamp ∧
        (alookup w4rec.nodeName (runMetrics w4results 0).nodeUtil = none →
          e2 = w4rec ∧ e2.cpuUtilization = 0 ∧ e2.memoryUtilization = 0)) :=
  ⟨(claim10_second_pass_frame w4results 0).1,
    (claim10_second_pass_frame w4results 0).2.2 "node1:0" w4rec (by decide)⟩

/-- Claim C4: for all valid point sets — validity taken as: every
point's `gpu_id` label is empty or is the canonical decimal rendering
of the integer it parses to — every record emitted by
`parseGPUMetrics` has a non-empty node name and a GPU index that
round-trips from the original `gpu_id` label of the point that created
the record: rendering the stored integer index reproduces that label.
(Without the validity hypothesis the round-trip fails, e.g. for the
non-canonical label `"00"`, whose record stores index 0.) -/
theorem claim4_node_nonempty_index_roundtrip (results : List (String × PrometheusResponse))
    (now : Nat)
    (hvalid : ∀ p ∈ allPoints results, getLabel p.metric "gpu_id" = "" ∨
      toString (atoiVal (getLabel p.metric "gpu_id")) = getLabel p.metric "gpu_id") :
    ∀ rec ∈ (parseGPUMetricsCore results now).toList, rec.nodeName ≠ "" ∧
      ∃ p ∈ allPoints results, getLabel p.metric "hostname" = rec.nodeName ∧
        getLabel p.metric "gpu_id" ≠ "" ∧
        rec.gpuIndex = atoiVal (getLabel p.metric "gpu_id") ∧
        toString rec.gpuIndex = getLabel p.metric "gpu_id" := by
  intro rec hrec
  rw [show (parseGPUMetricsCore results now).toList =
      (metricsFinalMap results now).map (·.2) from appendAll_toList _] at hrec
  obtain ⟨kv, hkv, hrec2⟩ := List.mem_map.mp hrec
  obtain ⟨kv0, hkv0, hkv0e⟩ := List.mem_map.mp
    (show kv ∈ (runMetrics results now).metricsMap.map
        (fun kv2 => (kv2.1, applyOneUtil (runMetrics results now).nodeUtil kv2.2)) from hkv)
  obtain ⟨hne, p, hp, hh, hg, hi⟩ := runMetrics_entry_pres
    (fun e => e.nodeName ≠ "" ∧ ∃ p ∈ allPoints results,
      getLabel p.metric "hostname" = e.nodeName ∧ getLabel p.metric "gpu_id" ≠ "" ∧
      e.gpuIndex = atoiVal (getLabel p.metric "gpu_id"))
    results now
    (by
      intro p hp h1 h2
      exact ⟨h1, p, hp, rfl, h2, rfl⟩)
    (by
      intro mt2 v e he
      obtain ⟨hne, p, hp, hh, hg, hi⟩ := he
      obtain ⟨f1, f2, _, _⟩ := setMetricField_frame mt2 v e
      exact ⟨f1.symm ▸ hne, p, hp, f1.symm ▸ hh, hg, f2.symm ▸ hi⟩)
    kv0 hkv0
  have hrecval : rec = applyOneUtil (runMetrics results now).nodeUtil kv0.2 := by
    rw [← hrec2, ← hkv0e]
  obtain ⟨f1, f2, _⟩ := applyOneUtil_frame (runMetrics results now).nodeUtil kv0.2
  have hrn : rec.nodeName = kv0.2.nodeName := by rw [hrecval]; exact f1
  have hri : rec.gpuIndex = kv0.2.gpuIndex := by rw [hrecval]; exact f2
  refine ⟨hrn ▸ hne, p, hp, ?_, hg, ?_, ?_⟩
  · rw [hrn]; exact hh
  · rw [hri]; exact hi
  · rcases hvalid p hp with hbad | hcanon
    · exact absurd hbad hg
    · rw [hri, hi]; exact hcanon

theorem claim4_witness :
    w4rec.nodeName ≠ "" ∧ ∃ p ∈ allPoints w4results,
      getLabel p.metric "hostname" = w4rec.nodeName ∧ getLabel p.metric "gpu_id" ≠ "" ∧
      w4rec.gpuIndex = atoiVal (getLabel p.metric "gpu_id") ∧
      toString w4rec.gpuIndex = getLabel p.metric "gpu_id" :=
  claim4_node_nonempty_index_roundtrip w4results 0 (by decide) w4rec (by decide)

/-! Shape lemmas for the `parseGPUProcesses` loop body. -/

theorem processStep_skip_key {p : ResultPoint} (now : Nat) (mt : String)
    (pm : List (String × GPUProcess)) (hk : procKey p = none) :
    processStep now mt pm p = pm := by
  unfold processStep
  simp [hk]

theorem processStep_skip_val {p : ResultPoint} {k : String} (now : Nat) (mt : String)
    (pm : List (String × GPUProcess)) (hk : procKey p = some k) (hv : pointVal p = none) :
    processStep now mt pm p = pm := by
  unfold processStep
  simp [hk, hv]

theorem processStep_store {p : ResultPoint} {k : String} {v : Frac} (now : Nat)
    (pm : List (String × GPUProcess)) (hk : procKey p = some k) (hv : pointVal p = some v) :
    processStep now "gpu_memory" pm p =
      (let proc := (alookup k pm).getD (freshProc now p)
      aupdate k { proc with gpuMemory := truncFrac v } pm) := by
  unfold processStep
  simp [hk, hv]

theorem contributes_false_of_key_none {p : ResultPoint} (k : String)
    (hk : procKey p = none) : contributes k p = false := by
  unfold contributes
  rw [hk]
  rfl

theorem contributes_false_of_val_none {p : ResultPoint} (k : String)
    (hv : pointVal p = none) : contributes k p = false := by
  unfold contributes
  rw [hv]
  simp

theorem contributes_false_of_key_ne {p : ResultPoint} {k2 : String} (k : String)
    (hk : procKey p = some k2) (hne : k2 ≠ k) : contributes k p = false := by
  unfold contributes
  rw [hk]
  have hb : ((some k2 == some k) : Bool) = false := by
    rw [beq_eq_false_iff_ne]
    simpa using hne
  rw [hb]
  rfl

theorem contributes_true_of {p : ResultPoint} {k : String} (hk : procKey p = some k)
    (hv : (pointVal p).isSome) : contributes k p = true := by
  unfold contributes
  rw [hk]
  simp [hv]

theorem contrib_append (k : String) (l1 l2 : List ResultPoint) :
    contrib k (l1 ++ l2) = contrib k l1 ++ contrib k l2 :=
  List.filter_append _ _

theorem contrib_singleton_pos {q : ResultPoint} (k : String) (h : contributes k q = true) :
    contrib k [q] = [q] := by
  simp [contrib, List.filter, h]

theorem contrib_singleton_neg {q : ResultPoint} (k : String) (h : contributes k q = false) :
    contrib k [q] = [] := by
  simp [contrib, List.filter, h]

theorem procInv_nil (now : Nat) : ProcInv now [] [] := by
  intro k
  constructor
  · intro _
    rfl
  · intro rec h
    exact Option.noConfusion h

theorem processStep_inv (now : Nat) (pm : List (String × GPUProcess))
    (processed : List ResultPoint) (q : ResultPoint) (h : ProcInv now pm processed) :
    ProcInv now (processStep now "gpu_memory" pm q) (processed ++ [q]) := by
  intro k
  cases hk : procKey q with
  | none =>
    rw [processStep_skip_key now "gpu_memory" pm hk, contrib_append,
      contrib_singleton_neg k (contributes_false_of_key_none k hk), List.append_nil]
    exact h k
  | some kq =>
    cases hv : pointVal q with
    | none =>
      rw [processStep_skip_val now "gpu_memory" pm hk hv, contrib_append,
        contrib_singleton_neg k (contributes_false_of_val_none k hv), List.append_nil]
      exact h k
    | some v =>
      rw [processStep_store now pm hk hv]
      by_cases hkk : k = kq
      · subst hkk
        have hcq : contributes k q = true := contributes_true_of hk (by rw [hv]; rfl)
        rw [contrib_append, contrib_singleton_pos k hcq]
        constructor
        · intro h0
          rw [show (let proc := (alookup k pm).getD (freshProc now q)
              aupdate k { proc with gpuMemory := truncFrac v } pm) =
              aupdate k { (alookup k pm).getD (freshProc now q) with
                gpuMemory := truncFrac v } pm from rfl, alookup_aupdate_self] at h0
          exact Option.noConfusion h0
        · intro rec hrec
          rw [show (let proc := (alookup k pm).getD (freshProc now q)
              aupdate k { proc with gpuMemory := truncFrac v } pm) =
              aupdate k { (alookup k pm).getD (freshProc now q) with
                gpuMemory := truncFrac v } pm from rfl, alookup_aupdate_self] at hrec
          have hrec2 : rec = { (alookup k pm).getD (freshProc now q) with
              gpuMemory := truncFrac v } := (Option.some.inj hrec).symm
          cases hl : alookup k pm with
          | none =>
            have hnil : contrib k processed = [] := (h k).1 hl
            rw [hnil, List.nil_append]
            refine ⟨q, q, rfl, rfl, ?_⟩
            rw [hrec2, hl]
            unfold mkProcRec
            rw [hv]
            rfl
          | some rec0 =>
            obtain ⟨pf, pl, hhead, hlast, hrec0⟩ := (h k).2 rec0 hl
            refine ⟨pf, q, ?_, ?_, ?_⟩
            · rw [List.head?_append, hhead]
              rfl
            · rw [List.getLast?_append]
              rfl
            · rw [hrec2, hl]
              show { rec0 with gpuMemory := truncFrac v } = mkProcRec now pf q
              rw [hrec0]
              unfold mkProcRec
              rw [hv]
              rfl
      · have hne : contributes k q = false :=
          contributes_false_of_key_ne k hk (fun hx => hkk hx.symm)
        rw [contrib_append, contrib_singleton_neg k hne, List.append_nil]
        constructor
        · intro h0
          rw [show (let proc := (alookup kq pm).getD (freshProc now q)
              aupdate kq { proc with gpuMemory := truncFrac v } pm) =
              aupdate kq { (alookup kq pm).getD (freshProc now q) with
                gpuMemory := truncFrac v } pm from rfl, alookup_aupdate_ne hkk] at h0
          exact (h k).1 h0
        · intro rec hrec
          rw [show (let proc := (alookup kq pm).getD (freshProc now q)
              aupdate kq { proc with gpuMemory := truncFrac v } pm) =
              aupdate kq { (alookup kq pm).getD (freshProc now q) with
                gpuMemory := truncFrac v } pm from rfl, alookup_aupdate_ne hkk] at hrec
          exact (h k).2 rec hrec

theorem processFold_inv (now : Nat) (pts : List ResultPoint)
    (pm : List (String × GPUProcess)) (processed : List ResultPoint)
    (h : ProcInv now pm processed) :
    ProcInv now (pts.foldl (processStep now "gpu_memory") pm) (processed ++ pts) := by
  induction pts generalizing pm processed with
  | nil => simpa using h
  | cons q t ih =>
    have h3 := ih (processStep now "gpu_memory" pm q) (processed ++ [q])
      (processStep_inv now pm processed q h)
    simpa [List.append_assoc] using h3

/-- Claim C8: in `parseGPUProcesses`, for the single-metric input shape
`GetGPUProcesses` actually builds (`"gpu_memory"` only), a record is
inserted into the output map only together with a successfully parsed
value: a key is present only if at least one of its points had a
well-formed, parseable value string; the stored record's GPU memory is
the truncation of the last successfully parsed value for the key, and
its identity, descriptive fields (process name, user, command) and
timestamp are those captured when the record first actually entered the
map — the first point of the key whose value parsed (a candidate built
from a point whose value fails to parse is discarded, never stored) —
and are never updated by later points of the same key. -/
theorem claim8_record_insertion (resp : PrometheusResponse) (now : Nat) (k : String)
    (rec : GPUProcess)
    (h : alookup k (procMapOf [("gpu_memory", some resp)] now) = some rec) :
    ∃ pf pl, (contrib k resp.result).head? = some pf ∧
      (contrib k resp.result).getLast? = some pl ∧ rec = mkProcRec now pf pl ∧
      contributes k pf = true ∧ contributes k pl = true := by
  have hmap : procMapOf [("gpu_memory", some resp)] now =
      resp.result.foldl (processStep now "gpu_memory") [] := by
    simp [procMapOf]
  rw [hmap] at h
  have hinv := processFold_inv now resp.result [] [] (procInv_nil now)
  obtain ⟨pf, pl, hh, hl, hr⟩ := (hinv k).2 rec h
  rw [List.nil_append] at hh hl
  refine ⟨pf, pl, hh, hl, hr, ?_, ?_⟩
  · exact (List.mem_filter.mp (mem_of_head?_eq hh)).2
  · exact (List.mem_filter.mp (mem_of_getLast?_eq hl)).2

theorem claim8_witness :
    ∃ pf pl, (contrib "n1:0:1" w8resp.result).head? = some pf ∧
      (contrib "n1:0:1" w8resp.result).getLast? = some pl ∧ w8rec = mkProcRec 0 pf pl ∧
      contributes "n1:0:1" pf = true ∧ contributes "n1:0:1" pl = true :=
  claim8_record_insertion w8resp 0 "n1:0:1" w8rec (by decide)

end GpuMon
